import Mathlib

/-!
Verification model of the resilient-event-orchestration-gateway repository.

The TypeScript source is shallowly embedded: MongoDB ledger rows become a
`List EventRow` consulted and updated in document order (the `eventId` field
carries a unique index, so at most one row per id is ever live); BullMQ
queues become lists of job records; `Date.now()` / `new Date()` values are
threaded as explicit `now : Nat` parameters; the nondeterministic outcome of
one routing-collaborator call is an explicit `routingOk : Bool` parameter;
the crypto HMAC primitive (a Node builtin, outside the repository) is an
explicit function parameter.
-/

set_option linter.unusedVariables false

deriving instance DecidableEq for Except

namespace Gateway

/-- `EventStatus` from src/src/modules/event/model.ts: 'ROUTING_PENDING' | 'ROUTED' | 'FAILED'. -/
inductive EventStatus where
  | ROUTING_PENDING
  | ROUTED
  | FAILED
deriving DecidableEq, Repr

/-- `IEvent` from src/src/modules/event/model.ts (the Mongoose ledger row).
`payload` is opaque structured data, carried as a string. Timestamps are Nats. -/
structure EventRow where
  eventId : String
  type : String
  payload : String
  status : EventStatus
  correlationId : Option String
  attempts : Nat
  error : Option String
  processedAt : Option Nat
  createdAt : Nat
  updatedAt : Nat
deriving DecidableEq, Repr

/-- The Idempotency Ledger: the Event collection, rows in insertion order. -/
abbrev Ledger := List EventRow

/-- `EventJobData` from the queue module (src/unnamed/part_002). -/
structure EventJobData where
  eventId : String
  type : String
  payload : String
  correlationId : Option String
deriving DecidableEq, Repr

/-- `Event.findOne({ eventId })`: first row whose `eventId` matches. -/
def findRow : Ledger → String → Option EventRow
  | [], _ => none
  | r :: rs, e => if r.eventId = e then some r else findRow rs e

/-- Status of the ledger row for `e`, if any. -/
def statusOf (l : Ledger) (e : String) : Option EventStatus :=
  (findRow l e).map (·.status)

/-- `eventExists` from the repository (src/unnamed/part_002). -/
def eventExists (l : Ledger) (e : String) : Bool :=
  (findRow l e).isSome

/-- `getEventById` from the repository (src/unnamed/part_002). -/
def getEventById (l : Ledger) (e : String) : Option EventRow :=
  findRow l e

/-- `findOneAndUpdate({ eventId }, update, { new: true })`: rewrite the first
matching row with `f`, returning the updated document (or `none`: no upsert). -/
def updateFirst : Ledger → String → (EventRow → EventRow) → Option EventRow × Ledger
  | [], _, _ => (none, [])
  | r :: rs, e, f =>
      if r.eventId = e then (some (f r), f r :: rs)
      else
        let p := updateFirst rs e f
        (p.1, r :: p.2)

/-- The `$inc: { attempts: 1 }, $set: { updatedAt }` update of `incrementEventAttempts`. -/
def incAttempts (now : Nat) (r : EventRow) : EventRow :=
  { r with attempts := r.attempts + 1, updatedAt := now }

/-- The `$set` of `markEventFailed`: status FAILED, error, updatedAt. -/
def setFailed (err : String) (now : Nat) (r : EventRow) : EventRow :=
  { r with status := .FAILED, error := some err, updatedAt := now }

/-- The `$set` of `markEventRouted`: status ROUTED, processedAt, updatedAt. -/
def setRouted (now : Nat) (r : EventRow) : EventRow :=
  { r with status := .ROUTED, processedAt := some now, updatedAt := now }

/-- The fresh document built by `createEvent`: status ROUTING_PENDING, attempts 0. -/
def freshRow (data : EventJobData) (now : Nat) : EventRow :=
  { eventId := data.eventId, type := data.type, payload := data.payload,
    status := .ROUTING_PENDING, correlationId := data.correlationId,
    attempts := 0, error := none, processedAt := none,
    createdAt := now, updatedAt := now }

/-- `createEvent` from the repository (src/unnamed/part_002): `save()` on a new
document; the unique index on `eventId` rejects a duplicate (error code 11000),
which the function catches and converts to `null` with no ledger change. -/
def createEvent (l : Ledger) (data : EventJobData) (now : Nat) :
    Option EventRow × Ledger :=
  match findRow l data.eventId with
  | some _ => (none, l)
  | none => (some (freshRow data now), l ++ [freshRow data now])

/-- `incrementEventAttempts` from the repository (src/unnamed/part_002). -/
def incrementEventAttempts (l : Ledger) (e : String) (now : Nat) :
    Option EventRow × Ledger :=
  updateFirst l e (incAttempts now)

/-- `markEventFailed` from the repository (src/unnamed/part_002). -/
def markEventFailed (l : Ledger) (e : String) (err : String) (now : Nat) :
    Option EventRow × Ledger :=
  updateFirst l e (setFailed err now)

/-- `markEventRouted` from the repository (src/unnamed/part_002). -/
def markEventRouted (l : Ledger) (e : String) (now : Nat) :
    Option EventRow × Ledger :=
  updateFirst l e (setRouted now)

/-- Outcome of one `processEvent` call: the ledger afterwards, the returned
value or thrown error, and how many times the routing collaborator was invoked. -/
structure ProcessResult where
  ledger : Ledger
  outcome : Except String String
  routingCalls : Nat
deriving DecidableEq, Repr

/-- The tail of `processEvent` after the idempotency check (service.ts lines 63-81):
increment the attempt counter, call the routing collaborator (`routingOk` is the
outcome of this attempt's call), mark routed on success, rethrow on failure. -/
def processAttemptCore (l : Ledger) (data : EventJobData) (routingOk : Bool)
    (now : Nat) : ProcessResult :=
  let l2 := (incrementEventAttempts l data.eventId now).2
  if routingOk then
    { ledger := (markEventRouted l2 data.eventId now).2,
      outcome := .ok "Event routed successfully", routingCalls := 1 }
  else
    { ledger := l2,
      outcome := .error "Routing service temporarily unavailable", routingCalls := 1 }

/-- `processEvent` from src/src/modules/event/service.ts. `eventExists` and
`getEventById` read the same `findOne({ eventId })`, so the model branches on
that lookup once: an existing ROUTED row short-circuits (idempotent skip); an
absent row is created via `createEvent`; then the attempt proceeds. -/
def processEvent (l : Ledger) (data : EventJobData) (attemptsMade : Nat)
    (routingOk : Bool) (now : Nat) : ProcessResult :=
  match getEventById l data.eventId with
  | some row =>
      if row.status = .ROUTED then
        { ledger := l, outcome := .ok "Event already processed (idempotent skip)",
          routingCalls := 0 }
      else
        processAttemptCore l data routingOk now
  | none =>
      processAttemptCore
        ((createEvent l
            { eventId := data.eventId, type := data.type, payload := data.payload,
              correlationId := data.correlationId } now).2)
        data routingOk now

/-- The queue's default backoff settings (src/unnamed/part_002 lines 18-23):
type 'exponential', delay `RETRY_DELAY || 1000`. -/
structure BackoffSettings where
  btype : String
  delay : Nat
deriving DecidableEq, Repr

/-- `defaultJobOptions.backoff` of the `events` queue with default environment. -/
def eventQueueBackoff : BackoffSettings := { btype := "exponential", delay := 1000 }

/-- `defaultJobOptions.attempts` of the `events` queue: `MAX_RETRY_ATTEMPTS || 5`. -/
def eventQueueAttempts : Nat := 5

/-- BullMQ job lease states (the states named by `getJobs` in `replayDLQJobs`
and by the queue statistics). -/
inductive LeaseState where
  | waiting
  | active
  | delayed
  | completed
  | failed
deriving DecidableEq, Repr

/-- A job on the main `events` queue. `jobId` is `some eventId` when added by
`addEventToQueue` (deduplicating id) and `none` for an auto-assigned id (the
`retry` jobs replay adds without a `jobId` option). -/
structure QueueJob where
  jobId : Option String
  name : String
  data : EventJobData
deriving DecidableEq, Repr

/-- The record `addToDLQ` stores: `{ originalJob, error, failedAt, attempts }`. -/
structure DeadLetterEntry where
  originalJob : EventJobData
  error : String
  failedAt : Nat
  attempts : Nat
deriving DecidableEq, Repr

/-- A job on the `events-dlq` queue: BullMQ assigns it an id and tracks its
lease state (entries added by `addToDLQ` start out waiting). -/
structure DLQJob where
  jobId : Nat
  entry : DeadLetterEntry
  state : LeaseState
deriving DecidableEq, Repr

/-- The mutable backends the gateway touches: the Mongo ledger, the two BullMQ
queues (with the DLQ's id counter), and a count of routing-collaborator
invocations made so far (the collaborator is external; the count records the
calls the worker issues to it). -/
structure GatewayState where
  ledger : Ledger
  queue : List QueueJob
  dlq : List DLQJob
  nextDlqId : Nat
  routingCalls : Nat
deriving DecidableEq, Repr

/-- `addEventToQueue` (src/unnamed/part_002): `eventQueue.add('process-event',
data, { jobId: data.eventId })`. BullMQ treats an `add` whose custom jobId is
already present as a no-op returning the existing job. -/
def addEventToQueue (q : List QueueJob) (data : EventJobData) : List QueueJob :=
  if q.any (fun j => j.jobId = some data.eventId) then q
  else q ++ [{ jobId := some data.eventId, name := "process-event", data := data }]

/-- `addToDLQ` (src/unnamed/part_002): `deadLetterQueue.add('failed-event', data)`. -/
def addToDLQ (st : GatewayState) (entry : DeadLetterEntry) : GatewayState :=
  { st with dlq := st.dlq ++ [{ jobId := st.nextDlqId, entry := entry, state := .waiting }],
            nextDlqId := st.nextDlqId + 1 }

/-- `job.opts.attempts || 5` in the worker's failed handler (JS `||`: 0 and
undefined both fall back to 5). -/
def optsAttemptsOr5 : Option Nat → Nat
  | none => 5
  | some 0 => 5
  | some (n + 1) => n + 1

/-- The BullMQ job fields the worker reads: `job.data`, `job.attemptsMade`,
`job.opts.attempts`. -/
structure JobCtx where
  data : EventJobData
  attemptsMade : Nat
  optsAttempts : Option Nat
deriving DecidableEq, Repr

/-- The worker's `failed` handler (src/src/modules/event/worker.ts lines 55-79):
when `attemptsMade` has reached the configured maximum, run `handleFinalFailure`
(service.ts: `markEventFailed`) and then `addToDLQ`; otherwise do nothing
(BullMQ will retry). -/
def onJobFailed (st : GatewayState) (job : JobCtx) (errMsg : String) (now : Nat) :
    GatewayState :=
  let maxAttempts := optsAttemptsOr5 job.optsAttempts
  if job.attemptsMade ≥ maxAttempts then
    addToDLQ { st with ledger := (markEventFailed st.ledger job.data.eventId errMsg now).2 }
      { originalJob := job.data, error := errMsg, failedAt := now,
        attempts := job.attemptsMade }
  else st

/-- One worker attempt for a leased job: the processor runs `processEvent`
(with `job.attemptsMade` counting prior attempts); if it throws, BullMQ
increments `attemptsMade` and fires the `failed` handler. `routingOk` is the
routing collaborator's outcome for this attempt. -/
def runAttempt (st : GatewayState) (job : JobCtx) (routingOk : Bool) (now : Nat) :
    GatewayState × Except String String :=
  let r := processEvent st.ledger job.data job.attemptsMade routingOk now
  let st1 := { st with ledger := r.ledger, routingCalls := st.routingCalls + r.routingCalls }
  match r.outcome with
  | .ok m => (st1, .ok m)
  | .error e =>
      (onJobFailed st1 { job with attemptsMade := job.attemptsMade + 1 } e now, .error e)

/-- `n` consecutive failing attempts of the same job, starting at attempt
index `k` (the routing collaborator throws each time). -/
def runFailing (st : GatewayState) (data : EventJobData) (optsA : Option Nat)
    (k : Nat) (now : Nat) : Nat → GatewayState
  | 0 => st
  | n + 1 =>
      runFailing
        ((runAttempt st { data := data, attemptsMade := k, optsAttempts := optsA }
            false now).1)
        data optsA (k + 1) now n

/-- A DLQ job is picked up by `getJobs(['waiting', 'delayed'])`. -/
def dlqEligible (j : DLQJob) : Bool :=
  j.state = .waiting || j.state = .delayed

/-- The loop body of `replayDLQJobs`: for each fetched job, `eventQueue.add
('retry', job.data.originalJob)` (no custom jobId) then `job.remove()`,
counting successes. -/
def replayGo : List DLQJob → GatewayState → Nat × GatewayState
  | [], st => (0, st)
  | j :: js, st =>
      let st1 := { st with
        queue := st.queue ++ [{ jobId := none, name := "retry", data := j.entry.originalJob }],
        dlq := st.dlq.filter (fun x => x.jobId ≠ j.jobId) }
      let p := replayGo js st1
      (p.1 + 1, p.2)

/-- `replayDLQJobs` (src/unnamed/part_002 lines 79-95). -/
def replayDLQJobs (st : GatewayState) : Nat × GatewayState :=
  replayGo (st.dlq.filter dlqEligible) st

/-- Modelled from the spec: the repository only configures BullMQ's builtin
exponential backoff (src/unnamed/part_002 lines 20-23); the delay computation
itself lives in the BullMQ library, outside this repository's sources. Per the
spec (§4.5) and the repository's own test (tests, Retry Strategy):
`nextDelay(attemptIndex) = baseDelay * 2^attemptIndex`. -/
def nextDelay (baseDelay : Nat) (attemptIndex : Nat) : Nat :=
  baseDelay * 2 ^ attemptIndex

/-- Lowercase hex digit for a value below 16 (Node's `digest('hex')` output). -/
def hexDigit (n : Nat) : Char :=
  if n < 10 then Char.ofNat (48 + n) else Char.ofNat (87 + n)

/-- Byte list to lowercase hex characters, two per byte. -/
def hexEncodeChars : List Nat → List Char
  | [] => []
  | b :: bs => hexDigit (b / 16) :: hexDigit (b % 16) :: hexEncodeChars bs

/-- `digest('hex')`: the hex string of a byte sequence. -/
def hexEncode (bs : List Nat) : String :=
  ⟨hexEncodeChars bs⟩

/-- Value of one hex character (Node accepts both cases), or `none`. -/
def hexVal? (c : Char) : Option Nat :=
  if 48 ≤ c.toNat ∧ c.toNat ≤ 57 then some (c.toNat - 48)
  else if 97 ≤ c.toNat ∧ c.toNat ≤ 102 then some (c.toNat - 87)
  else if 65 ≤ c.toNat ∧ c.toNat ≤ 70 then some (c.toNat - 55)
  else none

/-- `Buffer.from(str, 'hex')`: decode hex pairs, stopping (without throwing) at
the first incomplete or invalid pair. -/
def hexDecode : List Char → List Nat
  | c1 :: c2 :: rest =>
      match hexVal? c1, hexVal? c2 with
      | some a, some b => (16 * a + b) :: hexDecode rest
      | _, _ => []
  | _ => []

/-- `validateHMAC` from the shared hmac module (seen in src/src/modules/event/worker.ts
lines 116-147). The Node `crypto.createHmac('sha256', secret).update(m).digest()`
primitive is outside the repository and is passed in as `hmac : secret → message →
digest bytes`; `payload` is the message bytes as a string (an object payload is
its `JSON.stringify`). `timingSafeEqual` on equal-length buffers is byte equality. -/
def validateHMAC (hmac : String → String → List Nat) (payload : String)
    (signature : String) (secret : String) : Bool :=
  if signature = "" ∨ secret = "" then false
  else
    let expected := hexEncode (hmac secret payload)
    let signatureBytes := hexDecode signature.data
    let expectedBytes := hexDecode expected.data
    if signatureBytes.length ≠ expectedBytes.length then false
    else signatureBytes == expectedBytes

/-- `generateHMAC` from the shared hmac module (worker.ts lines 152-157): hex
digest of the HMAC of the serialized payload. -/
def generateHMAC (hmac : String → String → List Nat) (payload : String)
    (secret : String) : String :=
  hexEncode (hmac secret payload)

/-- The parsed JSON request body as `ingestEvent` reads it; a missing or empty
`eventId`/`type` is the empty string (JS falsy), a missing `payload` is `none`. -/
structure RequestBody where
  eventId : String
  type : String
  payload : Option String
deriving DecidableEq, Repr

/-- The pieces of the Express request `ingestEvent` consults. `freshUuid` is
the value `crypto.randomUUID()` would produce if called. -/
structure IngestRequest where
  reqCorrelationId : Option String
  headerCorrelationId : Option String
  signature : Option String
  rawBody : Option String
  body : RequestBody
  freshUuid : String
deriving DecidableEq, Repr

/-- The response `ingestEvent` sends: status code and JSON body fields. The
measured `latencyMs` field (wall-clock) is outside the model. -/
structure IngestResponse where
  status : Nat
  accepted : Bool
  error : Option String
  eventId : Option String
  correlationId : String
  message : Option String
deriving DecidableEq, Repr

/-- JS `a || b` over possibly-absent strings: empty and undefined both fall back. -/
def orFalsy (a : Option String) (b : String) : String :=
  match a with
  | none => b
  | some s => if s = "" then b else s

/-- `req.correlationId || req.headers['x-correlation-id'] || crypto.randomUUID()`. -/
def resolveCorrelationId (req : IngestRequest) : String :=
  orFalsy req.reqCorrelationId (orFalsy req.headerCorrelationId req.freshUuid)

/-- JS falsiness of an optional string config/header value. -/
def strFalsy : Option String → Bool
  | none => true
  | some s => s == ""

/-- The job data `ingestEvent` enqueues on the accept path: the validated body
fields plus the resolved correlation id. -/
def ingestJobData (req : IngestRequest) : EventJobData :=
  { eventId := req.body.eventId, type := req.body.type,
    payload := req.body.payload.getD "",
    correlationId := some (resolveCorrelationId req) }

/-- `ingestEvent` from the controller (src/unnamed/part_001 lines 20-96):
config check, raw-body check, HMAC validation, minimal field validation, then a
single `addEventToQueue` and a 202 response. `cfg` is the `HMAC_SECRET`
environment value. -/
def ingestEvent (cfg : Option String) (hmac : String → String → List Nat)
    (st : GatewayState) (req : IngestRequest) : IngestResponse × GatewayState :=
  let correlationId := resolveCorrelationId req
  if strFalsy cfg then
    ({ status := 500, accepted := false, error := some "Server misconfiguration",
       eventId := none, correlationId := correlationId, message := none }, st)
  else if strFalsy req.rawBody then
    ({ status := 400, accepted := false, error := some "Invalid request body",
       eventId := none, correlationId := correlationId, message := none }, st)
  else if !(validateHMAC hmac (req.rawBody.getD "") (req.signature.getD "") (cfg.getD "")) then
    ({ status := 401, accepted := false, error := some "Invalid signature",
       eventId := none, correlationId := correlationId, message := none }, st)
  else if req.body.eventId == "" || req.body.type == "" || req.body.payload.isNone then
    ({ status := 400, accepted := false,
       error := some "Missing required fields: eventId, type, payload",
       eventId := none, correlationId := correlationId, message := none }, st)
  else
    ({ status := 202, accepted := true, error := none,
       eventId := some req.body.eventId, correlationId := correlationId,
       message := some "Event queued for processing" },
     { st with queue := addEventToQueue st.queue (ingestJobData req) })

/-- Number of ledger rows carrying a given `eventId`. -/
def countRows (l : Ledger) (e : String) : Nat :=
  l.countP (fun r => r.eventId == e)

/-- A sequence of `createEvent` calls (sequential `tryCreate`s), returning the
final ledger and the result of each call in order. -/
def runCreates : Ledger → List EventJobData → Nat → Ledger × List (Option EventRow)
  | l, [], _ => (l, [])
  | l, d :: ds, now =>
      let p := createEvent l d now
      let q := runCreates p.2 ds now
      (q.1, p.1 :: q.2)

/-! ### Concrete fixtures used by witnesses and counterexamples -/

/-- A concrete job payload. -/
def sampleData : EventJobData :=
  { eventId := "e1", type := "t", payload := "p", correlationId := none }

/-- A concrete ledger row that has already been routed. -/
def sampleRoutedRow : EventRow :=
  { eventId := "e1", type := "t", payload := "p", status := .ROUTED,
    correlationId := none, attempts := 1, error := none, processedAt := some 3,
    createdAt := 0, updatedAt := 3 }

/-- A concrete ledger row in terminal FAILED state (a dead-lettered event). -/
def sampleFailedRow : EventRow :=
  { eventId := "e1", type := "t", payload := "p", status := .FAILED,
    correlationId := none, attempts := 5, error := some "boom",
    processedAt := none, createdAt := 0, updatedAt := 9 }

/-- A concrete ledger row still pending. -/
def samplePendingRow : EventRow :=
  { eventId := "e1", type := "t", payload := "p", status := .ROUTING_PENDING,
    correlationId := none, attempts := 0, error := none, processedAt := none,
    createdAt := 0, updatedAt := 0 }

/-- A gateway state with the given ledger and empty queues. -/
def sampleState (l : Ledger) : GatewayState :=
  { ledger := l, queue := [], dlq := [], nextDlqId := 0, routingCalls := 0 }

/-! ### Helper lemmas about the ledger primitives -/

theorem findRow_append (l : Ledger) (e : String) (row : EventRow) :
    findRow (l ++ [row]) e =
      match findRow l e with
      | some r => some r
      | none => if row.eventId = e then some row else none := by
  induction l with
  | nil => simp [findRow]
  | cons r rs ih => by_cases h : r.eventId = e <;> simp [findRow, h, ih]

theorem updateFirst_of_none {l : Ledger} {e : String} (f : EventRow → EventRow)
    (h : findRow l e = none) : updateFirst l e f = (none, l) := by
  induction l with
  | nil => rfl
  | cons r rs ih =>
      by_cases h' : r.eventId = e
      · simp [findRow, h'] at h
      · simp [findRow, h'] at h
        simp [updateFirst, h', ih h]

theorem updateFirst_found {l : Ledger} {e : String} {r : EventRow}
    (f : EventRow → EventRow) (h : findRow l e = some r) :
    (updateFirst l e f).1 = some (f r) := by
  induction l with
  | nil => simp [findRow] at h
  | cons r0 rs ih =>
      by_cases h' : r0.eventId = e
      · simp [findRow, h'] at h
        subst h
        simp [updateFirst, h']
      · simp [findRow, h'] at h
        simp [updateFirst, h', ih h]

theorem findRow_updateFirst_self {l : Ledger} {e : String} {r : EventRow}
    {f : EventRow → EventRow} (hf : ∀ x, (f x).eventId = x.eventId)
    (h : findRow l e = some r) :
    findRow (updateFirst l e f).2 e = some (f r) := by
  induction l with
  | nil => simp [findRow] at h
  | cons r0 rs ih =>
      by_cases h' : r0.eventId = e
      · simp [findRow, h'] at h
        subst h
        simp [updateFirst, h', findRow, hf]
      · simp [findRow, h'] at h
        simp [updateFirst, h', findRow, ih h]

theorem findRow_updateFirst_other {l : Ledger} {e e' : String}
    {f : EventRow → EventRow} (hf : ∀ x, (f x).eventId = x.eventId)
    (hne : e' ≠ e) :
    findRow (updateFirst l e f).2 e' = findRow l e' := by
  induction l with
  | nil => rfl
  | cons r0 rs ih =>
      by_cases h' : r0.eventId = e
      · have h1 : (f r0).eventId ≠ e' := by rw [hf, h']; exact Ne.symm hne
        have h2 : r0.eventId ≠ e' := by rw [h']; exact Ne.symm hne
        have h3 : e ≠ e' := Ne.symm hne
        simp [updateFirst, h', findRow, h1, h2, h3]
      · by_cases h'' : r0.eventId = e' <;>
          simp [updateFirst, findRow, h', h'', ih, hne]

theorem updateFirst_append_last {l : Ledger} {e : String} {r : EventRow}
    (f : EventRow → EventRow) (h : findRow l e = none) (hr : r.eventId = e) :
    updateFirst (l ++ [r]) e f = (some (f r), l ++ [f r]) := by
  induction l with
  | nil => simp [updateFirst, hr]
  | cons r0 rs ih =>
      by_cases h' : r0.eventId = e
      · simp [findRow, h'] at h
      · simp [findRow, h'] at h
        simp [updateFirst, h', ih h]

theorem countRows_updateFirst {l : Ledger} (e e' : String)
    {f : EventRow → EventRow} (hf : ∀ x, (f x).eventId = x.eventId) :
    countRows (updateFirst l e f).2 e' = countRows l e' := by
  induction l with
  | nil => rfl
  | cons r0 rs ih =>
      by_cases h' : r0.eventId = e
      · simp [updateFirst, h', countRows, List.countP_cons, hf]
      · simp only [updateFirst, h', if_neg h']
        simp [countRows, List.countP_cons] at ih ⊢
        omega

theorem countRows_append (l : Ledger) (e : String) (r : EventRow) :
    countRows (l ++ [r]) e = countRows l e + (if r.eventId = e then 1 else 0) := by
  by_cases h : r.eventId = e <;> simp [countRows, List.countP_append, List.countP_cons, h]

theorem countRows_eq_zero_of_findRow_none {l : Ledger} {e : String}
    (h : findRow l e = none) : countRows l e = 0 := by
  induction l with
  | nil => rfl
  | cons r0 rs ih =>
      by_cases h' : r0.eventId = e
      · simp [findRow, h'] at h
      · simp [findRow, h'] at h
        simp [countRows, List.countP_cons, h'] at ih ⊢
        exact ih h

theorem findRow_isSome_of_countRows_pos {l : Ledger} {e : String}
    (h : 0 < countRows l e) : (findRow l e).isSome := by
  induction l with
  | nil => simp [countRows] at h
  | cons r0 rs ih =>
      by_cases h' : r0.eventId = e
      · simp [findRow, h']
      · have h2 : 0 < countRows rs e := by
          simpa [countRows, List.countP_cons, h'] using h
        simpa [findRow, h'] using ih h2

/-! ### Behaviour of `processEvent` case by case -/

theorem processEvent_skip {l : Ledger} {data : EventJobData} (k : Nat) (ok : Bool)
    (now : Nat) {row : EventRow} (hrow : findRow l data.eventId = some row)
    (hst : row.status = .ROUTED) :
    processEvent l data k ok now =
      { ledger := l, outcome := .ok "Event already processed (idempotent skip)",
        routingCalls := 0 } := by
  simp [processEvent, getEventById, hrow, hst]

theorem processEvent_exists_fail {l : Ledger} {data : EventJobData} (k now : Nat)
    {row : EventRow} (hrow : findRow l data.eventId = some row)
    (hst : row.status ≠ .ROUTED) :
    processEvent l data k false now =
      { ledger := (incrementEventAttempts l data.eventId now).2,
        outcome := .error "Routing service temporarily unavailable",
        routingCalls := 1 } := by
  simp [processEvent, getEventById, hrow, hst, processAttemptCore]

theorem processEvent_exists_ok {l : Ledger} {data : EventJobData} (k now : Nat)
    {row : EventRow} (hrow : findRow l data.eventId = some row)
    (hst : row.status ≠ .ROUTED) :
    processEvent l data k true now =
      { ledger := (markEventRouted (incrementEventAttempts l data.eventId now).2
          data.eventId now).2,
        outcome := .ok "Event routed successfully", routingCalls := 1 } := by
  simp [processEvent, getEventById, hrow, hst, processAttemptCore]

theorem processEvent_fresh {l : Ledger} {data : EventJobData} (k : Nat) (ok : Bool)
    (now : Nat) (h : findRow l data.eventId = none) :
    processEvent l data k ok now =
      processAttemptCore (l ++ [freshRow data now]) data ok now := by
  simp [processEvent, getEventById, h, createEvent]

theorem processEvent_fresh_fail {l : Ledger} {data : EventJobData} (k now : Nat)
    (h : findRow l data.eventId = none) :
    processEvent l data k false now =
      { ledger := l ++ [incAttempts now (freshRow data now)],
        outcome := .error "Routing service temporarily unavailable",
        routingCalls := 1 } := by
  rw [processEvent_fresh k false now h]
  have hup := updateFirst_append_last (incAttempts now) h (r := freshRow data now) rfl
  simp [processAttemptCore, incrementEventAttempts, hup]

/-! ### Behaviour of one worker attempt (`runAttempt`) -/

theorem runAttempt_skip {st : GatewayState} {job : JobCtx} (ok : Bool) (now : Nat)
    {row : EventRow} (hrow : findRow st.ledger job.data.eventId = some row)
    (hst : row.status = .ROUTED) :
    runAttempt st job ok now = (st, .ok "Event already processed (idempotent skip)") := by
  simp [runAttempt, processEvent_skip job.attemptsMade ok now hrow hst]

theorem runAttempt_exists_ok {st : GatewayState} {job : JobCtx} (now : Nat)
    {row : EventRow} (hrow : findRow st.ledger job.data.eventId = some row)
    (hst : row.status ≠ .ROUTED) :
    runAttempt st job true now =
      ({ st with
          ledger := (markEventRouted
            (incrementEventAttempts st.ledger job.data.eventId now).2
            job.data.eventId now).2,
          routingCalls := st.routingCalls + 1 },
       .ok "Event routed successfully") := by
  simp [runAttempt, processEvent_exists_ok job.attemptsMade now hrow hst]

theorem runAttempt_fail_nonterminal {st : GatewayState} {job : JobCtx} (now : Nat)
    {row : EventRow} (hrow : findRow st.ledger job.data.eventId = some row)
    (hst : row.status ≠ .ROUTED)
    (hlt : job.attemptsMade + 1 < optsAttemptsOr5 job.optsAttempts) :
    runAttempt st job false now =
      ({ st with
          ledger := (incrementEventAttempts st.ledger job.data.eventId now).2,
          routingCalls := st.routingCalls + 1 },
       .error "Routing service temporarily unavailable") := by
  simp [runAttempt, processEvent_exists_fail job.attemptsMade now hrow hst,
    onJobFailed, not_le.mpr hlt]

theorem runAttempt_fail_terminal {st : GatewayState} {job : JobCtx} (now : Nat)
    {row : EventRow} (hrow : findRow st.ledger job.data.eventId = some row)
    (hst : row.status ≠ .ROUTED)
    (hge : job.attemptsMade + 1 ≥ optsAttemptsOr5 job.optsAttempts) :
    runAttempt st job false now =
      (addToDLQ
        { st with
            ledger := (markEventFailed
              (incrementEventAttempts st.ledger job.data.eventId now).2
              job.data.eventId "Routing service temporarily unavailable" now).2,
            routingCalls := st.routingCalls + 1 }
        { originalJob := job.data, error := "Routing service temporarily unavailable",
          failedAt := now, attempts := job.attemptsMade + 1 },
       .error "Routing service temporarily unavailable") := by
  simp [runAttempt, processEvent_exists_fail job.attemptsMade now hrow hst,
    onJobFailed, hge]

theorem runAttempt_fresh_fail_nonterminal {st : GatewayState} {job : JobCtx} (now : Nat)
    (h : findRow st.ledger job.data.eventId = none)
    (hlt : job.attemptsMade + 1 < optsAttemptsOr5 job.optsAttempts) :
    runAttempt st job false now =
      ({ st with
          ledger := st.ledger ++ [incAttempts now (freshRow job.data now)],
          routingCalls := st.routingCalls + 1 },
       .error "Routing service temporarily unavailable") := by
  simp [runAttempt, processEvent_fresh_fail job.attemptsMade now h,
    onJobFailed, not_le.mpr hlt]

theorem runAttempt_fresh_fail_terminal {st : GatewayState} {job : JobCtx} (now : Nat)
    (h : findRow st.ledger job.data.eventId = none)
    (hge : job.attemptsMade + 1 ≥ optsAttemptsOr5 job.optsAttempts) :
    runAttempt st job false now =
      (addToDLQ
        { st with
            ledger := st.ledger ++
              [setFailed "Routing service temporarily unavailable" now
                (incAttempts now (freshRow job.data now))],
            routingCalls := st.routingCalls + 1 }
        { originalJob := job.data, error := "Routing service temporarily unavailable",
          failedAt := now, attempts := job.attemptsMade + 1 },
       .error "Routing service temporarily unavailable") := by
  have hup := updateFirst_append_last
    (setFailed "Routing service temporarily unavailable" now) h
    (r := incAttempts now (freshRow job.data now)) rfl
  simp [runAttempt, processEvent_fresh_fail job.attemptsMade now h,
    onJobFailed, hge, markEventFailed, hup]

theorem findRow_append_other {l : Ledger} {e2 : String} {r : EventRow}
    (h : r.eventId ≠ e2) : findRow (l ++ [r]) e2 = findRow l e2 := by
  rw [findRow_append]
  cases hf : findRow l e2 <;> simp [h]

theorem processEvent_fresh_ok {l : Ledger} {data : EventJobData} (k now : Nat)
    (h : findRow l data.eventId = none) :
    processEvent l data k true now =
      { ledger := l ++ [setRouted now (incAttempts now (freshRow data now))],
        outcome := .ok "Event routed successfully", routingCalls := 1 } := by
  rw [processEvent_fresh k true now h]
  have hup := updateFirst_append_last (incAttempts now) h
    (r := freshRow data now) rfl
  have hup2 := updateFirst_append_last (setRouted now) h
    (r := incAttempts now (freshRow data now)) rfl
  simp [processAttemptCore, incrementEventAttempts, hup, markEventRouted, hup2]

theorem runAttempt_fresh_ok {st : GatewayState} {job : JobCtx} (now : Nat)
    (h : findRow st.ledger job.data.eventId = none) :
    runAttempt st job true now =
      ({ st with
          ledger := st.ledger ++ [setRouted now (incAttempts now (freshRow job.data now))],
          routingCalls := st.routingCalls + 1 },
       .ok "Event routed successfully") := by
  simp [runAttempt, processEvent_fresh_ok job.attemptsMade now h]

theorem runAttempt_findRow_other (st : GatewayState) (job : JobCtx) (ok : Bool)
    (now : Nat) (e2 : String) (hne : e2 ≠ job.data.eventId) :
    findRow (runAttempt st job ok now).1.ledger e2 = findRow st.ledger e2 := by
  cases hf : findRow st.ledger job.data.eventId with
  | some row =>
      by_cases hst : row.status = .ROUTED
      · rw [runAttempt_skip ok now hf hst]
      · cases ok with
        | true =>
            rw [runAttempt_exists_ok now hf hst]
            simp only [markEventRouted, incrementEventAttempts]
            rw [findRow_updateFirst_other (f := setRouted now) (fun x => rfl) hne,
                findRow_updateFirst_other (f := incAttempts now) (fun x => rfl) hne]
        | false =>
            by_cases hge : optsAttemptsOr5 job.optsAttempts ≤ job.attemptsMade + 1
            · rw [runAttempt_fail_terminal now hf hst hge]
              simp only [addToDLQ, markEventFailed, incrementEventAttempts]
              rw [findRow_updateFirst_other
                    (f := setFailed "Routing service temporarily unavailable" now)
                    (fun x => rfl) hne,
                  findRow_updateFirst_other (f := incAttempts now) (fun x => rfl) hne]
            · rw [runAttempt_fail_nonterminal now hf hst (not_le.mp hge)]
              simp only [incrementEventAttempts]
              rw [findRow_updateFirst_other (f := incAttempts now) (fun x => rfl) hne]
  | none =>
      cases ok with
      | true =>
          rw [runAttempt_fresh_ok now hf]
          exact findRow_append_other (Ne.symm hne)
      | false =>
          by_cases hge : optsAttemptsOr5 job.optsAttempts ≤ job.attemptsMade + 1
          · rw [runAttempt_fresh_fail_terminal now hf hge]
            exact findRow_append_other (Ne.symm hne)
          · rw [runAttempt_fresh_fail_nonterminal now hf (not_le.mp hge)]
            exact findRow_append_other (Ne.symm hne)

theorem runAttempt_statusOf_self (st : GatewayState) (job : JobCtx) (ok : Bool)
    (now : Nat) {row : EventRow}
    (hf : findRow st.ledger job.data.eventId = some row) :
    statusOf (runAttempt st job ok now).1.ledger job.data.eventId = some row.status ∨
    statusOf (runAttempt st job ok now).1.ledger job.data.eventId = some .ROUTED ∨
    (statusOf (runAttempt st job ok now).1.ledger job.data.eventId = some .FAILED ∧
      row.status ≠ .ROUTED) := by
  by_cases hst : row.status = .ROUTED
  · left
    rw [runAttempt_skip ok now hf hst]
    simp [statusOf, hf]
  · cases ok with
    | true =>
        right; left
        rw [runAttempt_exists_ok now hf hst]
        simp only [markEventRouted, incrementEventAttempts]
        have h1 := findRow_updateFirst_self (f := incAttempts now) (fun x => rfl) hf
        have h2 := findRow_updateFirst_self (f := setRouted now) (fun x => rfl) h1
        simp [statusOf, h2, setRouted]
    | false =>
        by_cases hge : optsAttemptsOr5 job.optsAttempts ≤ job.attemptsMade + 1
        · right; right
          refine ⟨?_, hst⟩
          rw [runAttempt_fail_terminal now hf hst hge]
          simp only [addToDLQ, markEventFailed, incrementEventAttempts]
          have h1 := findRow_updateFirst_self (f := incAttempts now) (fun x => rfl) hf
          have h2 := findRow_updateFirst_self
            (f := setFailed "Routing service temporarily unavailable" now)
            (fun x => rfl) h1
          simp [statusOf, h2, setFailed]
        · left
          rw [runAttempt_fail_nonterminal now hf hst (not_le.mp hge)]
          simp only [incrementEventAttempts]
          have h1 := findRow_updateFirst_self (f := incAttempts now) (fun x => rfl) hf
          simp [statusOf, h1, incAttempts]

/-! ### Claim theorems -/

/-- C2: if the ledger row for an eventId has status ROUTED, a new `processEvent`
call for that eventId returns success, performs zero routing-collaborator
invocations, and leaves the ledger (hence the attempt counter and the row)
unchanged. -/
theorem c2_routed_skip (l : Ledger) (data : EventJobData) (k : Nat) (ok : Bool)
    (now : Nat) (row : EventRow) (hrow : findRow l data.eventId = some row)
    (hst : row.status = .ROUTED) :
    processEvent l data k ok now =
      { ledger := l, outcome := .ok "Event already processed (idempotent skip)",
        routingCalls := 0 } :=
  processEvent_skip k ok now hrow hst

theorem c2_routed_skip_witness :
    processEvent [sampleRoutedRow] sampleData 0 true 9 =
      { ledger := [sampleRoutedRow],
        outcome := .ok "Event already processed (idempotent skip)",
        routingCalls := 0 } :=
  c2_routed_skip [sampleRoutedRow] sampleData 0 true 9 sampleRoutedRow
    (by decide) (by decide)

/-- C3: the retry policy of the events queue is exponential with base delay
1000 ms and 5 attempts, and `nextDelay` at attempt indices 0..4 yields exactly
[1000, 2000, 4000, 8000, 16000] milliseconds. -/
theorem c3_backoff_sequence :
    eventQueueBackoff.btype = "exponential" ∧
    (List.range eventQueueAttempts).map (nextDelay eventQueueBackoff.delay) =
      [1000, 2000, 4000, 8000, 16000] := by decide

/-- C9: on an eventId with no ledger row, `markEventFailed` and
`markEventRouted` return null and create no row (no upsert); the worker's
terminal failure path for such a job still appends a dead-letter entry while
the ledger stays without any row — in particular without a FAILED record —
for that eventId. -/
theorem c9_missing_row_dlq (st : GatewayState) (job : JobCtx) (err : String)
    (now : Nat) (hnone : findRow st.ledger job.data.eventId = none)
    (hmax : job.attemptsMade ≥ optsAttemptsOr5 job.optsAttempts) :
    markEventFailed st.ledger job.data.eventId err now = (none, st.ledger) ∧
    markEventRouted st.ledger job.data.eventId now = (none, st.ledger) ∧
    (onJobFailed st job err now).ledger = st.ledger ∧
    findRow (onJobFailed st job err now).ledger job.data.eventId = none ∧
    (onJobFailed st job err now).dlq =
      st.dlq ++ [{ jobId := st.nextDlqId,
                   entry := { originalJob := job.data, error := err,
                              failedAt := now, attempts := job.attemptsMade },
                   state := .waiting }] := by
  have h1 := updateFirst_of_none (setFailed err now) hnone
  have h2 := updateFirst_of_none (setRouted now) hnone
  refine ⟨h1, h2, ?_, ?_, ?_⟩ <;>
    simp [onJobFailed, addToDLQ, markEventFailed, hmax, h1, hnone]

theorem c9_missing_row_dlq_witness :
    markEventFailed [] "e1" "boom" 9 = (none, []) ∧
    markEventRouted [] "e1" 9 = (none, []) ∧
    (onJobFailed (sampleState [])
        { data := sampleData, attemptsMade := 5, optsAttempts := some 5 } "boom" 9).ledger
      = [] ∧
    findRow (onJobFailed (sampleState [])
        { data := sampleData, attemptsMade := 5, optsAttempts := some 5 } "boom" 9).ledger
      "e1" = none ∧
    (onJobFailed (sampleState [])
        { data := sampleData, attemptsMade := 5, optsAttempts := some 5 } "boom" 9).dlq
      = [{ jobId := 0,
           entry := { originalJob := sampleData, error := "boom",
                      failedAt := 9, attempts := 5 },
           state := .waiting }] :=
  c9_missing_row_dlq (sampleState [])
    { data := sampleData, attemptsMade := 5, optsAttempts := some 5 } "boom" 9
    (by decide) (by decide)

/-- C5 counterexample: the FAILED status is terminal according to the claim,
yet a worker attempt on a FAILED row (the DLQ-replay path) with a successful
routing call transitions the ledger status FAILED → ROUTED at this concrete
state. -/
theorem c5_terminal_counterexample :
    statusOf (sampleState [sampleFailedRow]).ledger "e1" = some .FAILED ∧
    statusOf ((runAttempt (sampleState [sampleFailedRow])
        { data := sampleData, attemptsMade := 0, optsAttempts := some 5 }
        true 9).1).ledger "e1" = some .ROUTED := by decide

/-- C7 counterexample: a failing attempt on a replayed FAILED event propagates
the failure but leaves the ledger status at FAILED, not at ROUTING_PENDING as
the claim states. -/
theorem c7_pending_counterexample :
    (processEvent [sampleFailedRow] sampleData 0 false 9).outcome =
      .error "Routing service temporarily unavailable" ∧
    statusOf (processEvent [sampleFailedRow] sampleData 0 false 9).ledger "e1" ≠
      some .ROUTING_PENDING := by decide

theorem findRow_eq_none_of_countRows_eq_zero {l : Ledger} {e : String}
    (h : countRows l e = 0) : findRow l e = none := by
  induction l with
  | nil => rfl
  | cons r0 rs ih =>
      by_cases h' : r0.eventId = e
      · simp [countRows, List.countP_cons, h'] at h
      · have h2 : countRows rs e = 0 := by
          simpa [countRows, List.countP_cons, h'] using h
        simp [findRow, h', ih h2]

theorem runCreates_existing {l : Ledger} {e : String} {ds : List EventJobData}
    (now : Nat) (hex : (findRow l e).isSome) (hall : ∀ d ∈ ds, d.eventId = e) :
    runCreates l ds now = (l, ds.map (fun _ => none)) := by
  induction ds with
  | nil => rfl
  | cons d ds' ih =>
      obtain ⟨r, hr⟩ := Option.isSome_iff_exists.mp hex
      have hd : d.eventId = e := hall d (by simp)
      have hcreate : createEvent l d now = (none, l) := by
        simp [createEvent, hd, hr]
      have ih' := ih (fun d' hd' => hall d' (List.mem_cons_of_mem d hd'))
      simp [runCreates, hcreate, ih']

/-- C1: starting from a ledger with no row for `e`, any nonempty sequence of
`createEvent` calls for `e` leaves exactly one ledger row for `e`; the first
call creates that row and every later call returns null and leaves the ledger
exactly as the first call left it (no side effects). -/
theorem c1_tryCreate_idempotent (l : Ledger) (e : String) (ds : List EventJobData)
    (now : Nat) (hzero : countRows l e = 0) (hne : ds ≠ [])
    (hall : ∀ d ∈ ds, d.eventId = e) :
    countRows (runCreates l ds now).1 e = 1 ∧
    (runCreates l ds now).1 = (createEvent l (ds.head hne) now).2 ∧
    (runCreates l ds now).2.head? = some (some (freshRow (ds.head hne) now)) ∧
    ∀ r ∈ (runCreates l ds now).2.tail, r = none := by
  have hnone : findRow l e = none := findRow_eq_none_of_countRows_eq_zero hzero
  cases ds with
  | nil => exact absurd rfl hne
  | cons d ds' =>
      have hd : d.eventId = e := hall d (by simp)
      have hcreate : createEvent l d now = (some (freshRow d now), l ++ [freshRow d now]) := by
        simp [createEvent, hd, hnone]
      have hfind1 : findRow (l ++ [freshRow d now]) e = some (freshRow d now) := by
        rw [findRow_append]
        simp [hnone, freshRow, hd]
      have hrest := runCreates_existing (l := l ++ [freshRow d now]) now
        (by simp [hfind1]) (fun d' hd' => hall d' (List.mem_cons_of_mem d hd'))
      have hcount : countRows (l ++ [freshRow d now]) e = 1 := by
        rw [countRows_append]
        simp [hzero, freshRow, hd]
      refine ⟨?_, ?_, ?_, ?_⟩ <;>
        simp [runCreates, hcreate, hrest, hcount, List.head]

theorem ingestEvent_resp_state_independent (cfg : Option String)
    (hmac : String → String → List Nat) (req : IngestRequest)
    (s1 s2 : GatewayState) :
    (ingestEvent cfg hmac s1 req).1 = (ingestEvent cfg hmac s2 req).1 := by
  unfold ingestEvent
  split_ifs <;> rfl

theorem ingestEvent_state_effects (cfg : Option String)
    (hmac : String → String → List Nat) (st : GatewayState) (req : IngestRequest) :
    (ingestEvent cfg hmac st req).2.ledger = st.ledger ∧
    (ingestEvent cfg hmac st req).2.dlq = st.dlq ∧
    (ingestEvent cfg hmac st req).2.routingCalls = st.routingCalls ∧
    (ingestEvent cfg hmac st req).2.nextDlqId = st.nextDlqId ∧
    ((ingestEvent cfg hmac st req).2.queue = st.queue ∨
     (ingestEvent cfg hmac st req).2.queue = addEventToQueue st.queue (ingestJobData req)) := by
  unfold ingestEvent
  split_ifs <;> simp

/-- C8: the ingestion handler's response (status code and body, the measured
latency field aside) is the same function of the request and the HMAC secret in
any two gateway states — in particular in states that differ only in what the
routing collaborator did or how long it took — and its only state effect is at
most one enqueue: ledger, DLQ and the routing-call count are untouched. -/
theorem c8_ingest_independent (cfg : Option String)
    (hmac : String → String → List Nat) (req : IngestRequest)
    (s1 s2 : GatewayState) :
    (ingestEvent cfg hmac s1 req).1 = (ingestEvent cfg hmac s2 req).1 ∧
    (ingestEvent cfg hmac s1 req).2.ledger = s1.ledger ∧
    (ingestEvent cfg hmac s1 req).2.dlq = s1.dlq ∧
    (ingestEvent cfg hmac s1 req).2.routingCalls = s1.routingCalls ∧
    ((ingestEvent cfg hmac s1 req).2.queue = s1.queue ∨
     (ingestEvent cfg hmac s1 req).2.queue = addEventToQueue s1.queue (ingestJobData req)) :=
  ⟨ingestEvent_resp_state_independent cfg hmac req s1 s2,
   (ingestEvent_state_effects cfg hmac s1 req).1,
   (ingestEvent_state_effects cfg hmac s1 req).2.1,
   (ingestEvent_state_effects cfg hmac s1 req).2.2.1,
   (ingestEvent_state_effects cfg hmac s1 req).2.2.2.2⟩

theorem replayGo_spec (js : List DLQJob) :
    ∀ st : GatewayState,
    (replayGo js st).1 = js.length ∧
    (replayGo js st).2.queue = st.queue ++ js.map
      (fun j => { jobId := none, name := "retry", data := j.entry.originalJob }) ∧
    (replayGo js st).2.dlq =
      st.dlq.filter (fun x => !(js.any (fun j => x.jobId == j.jobId))) ∧
    (replayGo js st).2.ledger = st.ledger ∧
    (replayGo js st).2.nextDlqId = st.nextDlqId ∧
    (replayGo js st).2.routingCalls = st.routingCalls := by
  induction js with
  | nil => intro st; simp [replayGo]
  | cons j js ih =>
      intro st
      obtain ⟨h1, h2, h3, h4, h5, h6⟩ := ih
        { st with
            queue := st.queue ++ [{ jobId := none, name := "retry", data := j.entry.originalJob }],
            dlq := st.dlq.filter (fun x => x.jobId ≠ j.jobId) }
      have hstep : (st.dlq.filter (fun x => x.jobId ≠ j.jobId)).filter
            (fun x => !(js.any (fun j2 => x.jobId == j2.jobId))) =
          st.dlq.filter (fun x => !((j :: js).any (fun j2 => x.jobId == j2.jobId))) := by
        rw [List.filter_filter]
        exact List.filter_congr (fun x _ => by
          by_cases hx : x.jobId = j.jobId <;> simp [hx, Bool.and_comm])
      exact ⟨congrArg (fun n => n + 1) h1,
             h2.trans (List.append_assoc _ _ _),
             h3.trans hstep, h4, h5, h6⟩

/-- C6: `replayDLQJobs` re-enqueues the stored original job data of every
waiting-or-delayed dead-letter entry onto the main queue as a fresh `retry` job
(auto id, no dedup key), removes exactly those entries from the DLQ, returns
the number of entries replayed, and leaves the Idempotency Ledger untouched
(an existing FAILED status stays in place). -/
theorem c6_replay_spec (st : GatewayState)
    (hnd : (st.dlq.map (fun j => j.jobId)).Nodup) :
    (replayDLQJobs st).1 = (st.dlq.filter dlqEligible).length ∧
    (replayDLQJobs st).2.queue = st.queue ++ (st.dlq.filter dlqEligible).map
      (fun j => { jobId := none, name := "retry", data := j.entry.originalJob }) ∧
    (replayDLQJobs st).2.dlq = st.dlq.filter (fun j => !(dlqEligible j)) ∧
    (replayDLQJobs st).2.ledger = st.ledger := by
  obtain ⟨h1, h2, h3, h4, h5, h6⟩ := replayGo_spec (st.dlq.filter dlqEligible) st
  refine ⟨h1, h2, h3.trans ?_, h4⟩
  refine List.filter_congr (fun x hx => ?_)
  by_cases hel : dlqEligible x
  · have hmem : x ∈ st.dlq.filter dlqEligible := List.mem_filter.mpr ⟨hx, hel⟩
    have : (st.dlq.filter dlqEligible).any (fun j => x.jobId == j.jobId) = true :=
      List.any_eq_true.mpr ⟨x, hmem, by simp⟩
    simp [this, hel]
  · have : (st.dlq.filter dlqEligible).any (fun j => x.jobId == j.jobId) = false := by
      rw [List.any_eq_false]
      intro j hj
      obtain ⟨hjmem, hjel⟩ := List.mem_filter.mp hj
      intro hbeq
      have hid : x.jobId = j.jobId := by simpa using hbeq
      have hinj := List.inj_on_of_nodup_map hnd hx hjmem hid
      exact hel (hinj ▸ hjel)
    simp [this, hel]

theorem c6_replay_spec_witness :
    (replayDLQJobs
        { ledger := [sampleFailedRow], queue := [],
          dlq := [{ jobId := 0,
                    entry := { originalJob := sampleData, error := "boom",
                               failedAt := 9, attempts := 5 },
                    state := .waiting },
                  { jobId := 1,
                    entry := { originalJob := sampleData, error := "boom",
                               failedAt := 9, attempts := 5 },
                    state := .completed }],
          nextDlqId := 2, routingCalls := 0 }).1 = 1 ∧
    (replayDLQJobs
        { ledger := [sampleFailedRow], queue := [],
          dlq := [{ jobId := 0,
                    entry := { originalJob := sampleData, error := "boom",
                               failedAt := 9, attempts := 5 },
                    state := .waiting },
                  { jobId := 1,
                    entry := { originalJob := sampleData, error := "boom",
                               failedAt := 9, attempts := 5 },
                    state := .completed }],
          nextDlqId := 2, routingCalls := 0 }).2.queue =
      [{ jobId := none, name := "retry", data := sampleData }] ∧
    (replayDLQJobs
        { ledger := [sampleFailedRow], queue := [],
          dlq := [{ jobId := 0,
                    entry := { originalJob := sampleData, error := "boom",
                               failedAt := 9, attempts := 5 },
                    state := .waiting },
                  { jobId := 1,
                    entry := { originalJob := sampleData, error := "boom",
                               failedAt := 9, attempts := 5 },
                    state := .completed }],
          nextDlqId := 2, routingCalls := 0 }).2.dlq =
      [{ jobId := 1,
         entry := { originalJob := sampleData, error := "boom",
                    failedAt := 9, attempts := 5 },
         state := .completed }] ∧
    (replayDLQJobs
        { ledger := [sampleFailedRow], queue := [],
          dlq := [{ jobId := 0,
                    entry := { originalJob := sampleData, error := "boom",
                               failedAt := 9, attempts := 5 },
                    state := .waiting },
                  { jobId := 1,
                    entry := { originalJob := sampleData, error := "boom",
                               failedAt := 9, attempts := 5 },
                    state := .completed }],
          nextDlqId := 2, routingCalls := 0 }).2.ledger = [sampleFailedRow] :=
  c6_replay_spec
    { ledger := [sampleFailedRow], queue := [],
      dlq := [{ jobId := 0,
                entry := { originalJob := sampleData, error := "boom",
                           failedAt := 9, attempts := 5 },
                state := .waiting },
              { jobId := 1,
                entry := { originalJob := sampleData, error := "boom",
                           failedAt := 9, attempts := 5 },
                state := .completed }],
      nextDlqId := 2, routingCalls := 0 } (by decide)

theorem c1_tryCreate_idempotent_witness :
    countRows (runCreates [] [sampleData, sampleData] 0).1 "e1" = 1 ∧
    ∀ r ∈ (runCreates [] [sampleData, sampleData] 0).2.tail, r = none :=
  ⟨(c1_tryCreate_idempotent [] "e1" [sampleData, sampleData] 0
      (by decide) (by decide) (by decide)).1,
   (c1_tryCreate_idempotent [] "e1" [sampleData, sampleData] 0
      (by decide) (by decide) (by decide)).2.2.2⟩

/-- C7 (amended): when the routing collaborator fails on a non-final attempt,
the worker propagates the failure and does not touch the DLQ; the ledger
status is left exactly as it was (in particular neither FAILED nor ROUTED is
set: a ROUTING_PENDING row stays ROUTING_PENDING, and a replayed FAILED row
stays FAILED — the claim's blanket "left at ROUTING_PENDING" fails there);
the only ledger change is `incAttempts` on the event's row — attempts + 1 and
updatedAt — with a fresh ROUTING_PENDING row created first when none existed. -/
theorem c7_transient_failure_frame (st : GatewayState) (job : JobCtx) (now : Nat)
    (hnr : statusOf st.ledger job.data.eventId ≠ some .ROUTED)
    (hlt : job.attemptsMade + 1 < optsAttemptsOr5 job.optsAttempts) :
    (runAttempt st job false now).2 = .error "Routing service temporarily unavailable" ∧
    (runAttempt st job false now).1.dlq = st.dlq ∧
    (∀ e2, e2 ≠ job.data.eventId →
      findRow (runAttempt st job false now).1.ledger e2 = findRow st.ledger e2) ∧
    (∀ row, findRow st.ledger job.data.eventId = some row →
      findRow (runAttempt st job false now).1.ledger job.data.eventId =
        some (incAttempts now row)) ∧
    (findRow st.ledger job.data.eventId = none →
      findRow (runAttempt st job false now).1.ledger job.data.eventId =
        some (incAttempts now (freshRow job.data now))) := by
  cases hf : findRow st.ledger job.data.eventId with
  | some row =>
      have hst : row.status ≠ .ROUTED := by
        intro hc
        exact hnr (by simp [statusOf, hf, hc])
      rw [runAttempt_fail_nonterminal now hf hst hlt]
      refine ⟨rfl, rfl, ?_, ?_, ?_⟩
      · intro e2 hne
        simp only [incrementEventAttempts]
        exact findRow_updateFirst_other (f := incAttempts now) (fun x => rfl) hne
      · intro row2 hrow2
        have hr : row2 = row := Option.some.inj hrow2.symm
        subst hr
        simp only [incrementEventAttempts]
        exact findRow_updateFirst_self (f := incAttempts now) (fun x => rfl) hf
      · intro hnone
        exact Option.noConfusion hnone
  | none =>
      rw [runAttempt_fresh_fail_nonterminal now hf hlt]
      refine ⟨rfl, rfl, ?_, ?_, ?_⟩
      · intro e2 hne
        exact findRow_append_other (Ne.symm hne)
      · intro row2 hrow2
        exact Option.noConfusion hrow2
      · intro _
        rw [findRow_append]
        simp [hf, freshRow, incAttempts]

theorem c7_transient_failure_frame_witness :
    findRow ((runAttempt (sampleState [samplePendingRow])
        { data := sampleData, attemptsMade := 0, optsAttempts := some 5 }
        false 9).1).ledger "e1" = some (incAttempts 9 samplePendingRow) :=
  (c7_transient_failure_frame (sampleState [samplePendingRow])
      { data := sampleData, attemptsMade := 0, optsAttempts := some 5 } 9
      (by decide) (by decide)).2.2.2.1 samplePendingRow (by decide)

/-- C5 (amended): ROUTED is terminal — no worker attempt changes it — and the
status changes any worker attempt can perform are exactly ROUTING_PENDING →
ROUTED, ROUTING_PENDING → FAILED, and FAILED → ROUTED (the DLQ-replay
reattempt; the claim's assertion that nothing leaves FAILED fails there);
DLQ replay and ingestion never modify ledger statuses at all. -/
theorem c5_status_transitions (st : GatewayState) (job : JobCtx) (ok : Bool)
    (now : Nat) (e : String) (cfg : Option String)
    (hmac : String → String → List Nat) (req : IngestRequest) :
    (statusOf st.ledger e = some .ROUTED →
      statusOf (runAttempt st job ok now).1.ledger e = some .ROUTED) ∧
    (statusOf st.ledger e = some .FAILED →
      statusOf (runAttempt st job ok now).1.ledger e = some .FAILED ∨
      statusOf (runAttempt st job ok now).1.ledger e = some .ROUTED) ∧
    (statusOf st.ledger e = some .ROUTING_PENDING →
      statusOf (runAttempt st job ok now).1.ledger e = some .ROUTING_PENDING ∨
      statusOf (runAttempt st job ok now).1.ledger e = some .ROUTED ∨
      statusOf (runAttempt st job ok now).1.ledger e = some .FAILED) ∧
    (replayDLQJobs st).2.ledger = st.ledger ∧
    (ingestEvent cfg hmac st req).2.ledger = st.ledger := by
  refine ⟨?_, ?_, ?_, (replayGo_spec (st.dlq.filter dlqEligible) st).2.2.2.1,
    (ingestEvent_state_effects cfg hmac st req).1⟩
  · intro h
    by_cases he : e = job.data.eventId
    · rw [he] at h ⊢
      cases hf : findRow st.ledger job.data.eventId with
      | none => simp [statusOf, hf] at h
      | some row =>
          have hrs : row.status = .ROUTED := by
            simpa [statusOf, hf] using h
          rcases runAttempt_statusOf_self st job ok now hf with h1 | h1 | ⟨h1, h2⟩
          · rw [h1, hrs]
          · exact h1
          · exact absurd hrs h2
    · simp only [statusOf, runAttempt_findRow_other st job ok now e he]
      exact h
  · intro h
    by_cases he : e = job.data.eventId
    · rw [he] at h ⊢
      cases hf : findRow st.ledger job.data.eventId with
      | none => simp [statusOf, hf] at h
      | some row =>
          have hrs : row.status = .FAILED := by
            simpa [statusOf, hf] using h
          rcases runAttempt_statusOf_self st job ok now hf with h1 | h1 | ⟨h1, h2⟩
          · left; rw [h1, hrs]
          · right; exact h1
          · left; exact h1
    · left
      simp only [statusOf, runAttempt_findRow_other st job ok now e he]
      exact h
  · intro h
    by_cases he : e = job.data.eventId
    · rw [he] at h ⊢
      cases hf : findRow st.ledger job.data.eventId with
      | none => simp [statusOf, hf] at h
      | some row =>
          have hrs : row.status = .ROUTING_PENDING := by
            simpa [statusOf, hf] using h
          rcases runAttempt_statusOf_self st job ok now hf with h1 | h1 | ⟨h1, h2⟩
          · left; rw [h1, hrs]
          · right; left; exact h1
          · right; right; exact h1
    · left
      simp only [statusOf, runAttempt_findRow_other st job ok now e he]
      exact h

theorem c5_status_transitions_witness :
    statusOf ((runAttempt (sampleState [sampleFailedRow])
        { data := sampleData, attemptsMade := 0, optsAttempts := some 5 }
        true 9).1).ledger "e1" = some .FAILED ∨
    statusOf ((runAttempt (sampleState [sampleFailedRow])
        { data := sampleData, attemptsMade := 0, optsAttempts := some 5 }
        true 9).1).ledger "e1" = some .ROUTED :=
  (c5_status_transitions (sampleState [sampleFailedRow])
      { data := sampleData, attemptsMade := 0, optsAttempts := some 5 } true 9
      "e1" none (fun k m => []) ⟨none, none, none, none, ⟨"", "", none⟩, "u"⟩).2.1
    (by decide)

theorem optsAttemptsOr5_pos (a : Option Nat) : 1 ≤ optsAttemptsOr5 a := by
  cases a with
  | none => decide
  | some n => cases n with
    | zero => decide
    | succ n2 => simp [optsAttemptsOr5]

/-- A run of failing attempts on an event whose row is ROUTING_PENDING:
every attempt before the configured maximum leaves the status
ROUTING_PENDING and the DLQ untouched; the run as a whole ends FAILED with
exactly one new dead-letter entry carrying `attempts = maxAttempts`. -/
theorem runFailing_pending_spec (data : EventJobData) (optsA : Option Nat)
    (now : Nat) :
    ∀ (n : Nat) (st : GatewayState) (k : Nat) (row : EventRow),
    findRow st.ledger data.eventId = some row →
    row.status = .ROUTING_PENDING →
    k + n = optsAttemptsOr5 optsA →
    1 ≤ n →
    statusOf (runFailing st data optsA k now n).ledger data.eventId = some .FAILED ∧
    (runFailing st data optsA k now n).dlq = st.dlq ++
      [{ jobId := st.nextDlqId,
         entry := { originalJob := data,
                    error := "Routing service temporarily unavailable",
                    failedAt := now, attempts := optsAttemptsOr5 optsA },
         state := .waiting }] ∧
    (∀ j, j < n →
      statusOf (runFailing st data optsA k now j).ledger data.eventId =
        some .ROUTING_PENDING ∧
      (runFailing st data optsA k now j).dlq = st.dlq) := by
  intro n
  induction n with
  | zero => intro st k row hf hp hk h1; exact absurd h1 (by omega)
  | succ m ih =>
      intro st k row hf hp hk h1
      have hstne : row.status ≠ .ROUTED := by rw [hp]; intro hc; cases hc
      by_cases hm : m = 0
      · subst hm
        have hge : optsAttemptsOr5 optsA ≤ k + 1 := by omega
        have hterm := @runAttempt_fail_terminal st
          { data := data, attemptsMade := k, optsAttempts := optsA } now row hf hstne hge
        have hfin : runFailing st data optsA k now 1 =
            (runAttempt st { data := data, attemptsMade := k, optsAttempts := optsA }
              false now).1 := rfl
        have h1f := findRow_updateFirst_self (f := incAttempts now) (fun x => rfl) hf
        have h2f := findRow_updateFirst_self
          (f := setFailed "Routing service temporarily unavailable" now)
          (fun x => rfl) h1f
        have hka : k + 1 = optsAttemptsOr5 optsA := by omega
        refine ⟨?_, ?_, ?_⟩
        · rw [hfin, hterm]
          simp [addToDLQ, markEventFailed, incrementEventAttempts, statusOf,
            h2f, setFailed]
        · rw [hfin, hterm]
          simp [addToDLQ, hka]
        · intro j hj
          have hj0 : j = 0 := by omega
          subst hj0
          exact ⟨by simp [runFailing, statusOf, hf, hp], rfl⟩
      · have hlt : k + 1 < optsAttemptsOr5 optsA := by omega
        have hstep := @runAttempt_fail_nonterminal st
          { data := data, attemptsMade := k, optsAttempts := optsA } now row hf hstne hlt
        obtain ⟨ha, hb, hc⟩ := ih
          { st with ledger := (incrementEventAttempts st.ledger data.eventId now).2,
                    routingCalls := st.routingCalls + 1 }
          (k + 1) (incAttempts now row)
          (findRow_updateFirst_self (f := incAttempts now) (fun x => rfl) hf)
          hp (by omega) (by omega)
        have hunfold : ∀ j : Nat, runFailing st data optsA k now (j + 1) =
            runFailing
              ((runAttempt st { data := data, attemptsMade := k, optsAttempts := optsA }
                false now).1) data optsA (k + 1) now j := fun j => rfl
        refine ⟨?_, ?_, ?_⟩
        · rw [hunfold m, hstep]
          exact ha
        · rw [hunfold m, hstep]
          exact hb
        · intro j hj
          cases j with
          | zero => exact ⟨by simp [runFailing, statusOf, hf, hp], rfl⟩
          | succ j2 =>
              have hj2 : j2 < m := by omega
              obtain ⟨hx, hy⟩ := hc j2 hj2
              refine ⟨?_, ?_⟩
              · rw [hunfold j2, hstep]
                exact hx
              · rw [hunfold j2, hstep]
                exact hy

/-- C4: starting with no ledger row for the event, a job all of whose
configured attempts fail ends with the ledger row FAILED, with exactly one new
dead-letter entry whose `attempts` equals the configured maximum; before the
final attempt the status is never FAILED and the DLQ receives nothing, so the
terminal failure path runs exactly once. -/
theorem c4_exhaustion_dlq (st : GatewayState) (data : EventJobData)
    (optsA : Option Nat) (now : Nat)
    (hfresh : findRow st.ledger data.eventId = none) :
    statusOf (runFailing st data optsA 0 now (optsAttemptsOr5 optsA)).ledger
      data.eventId = some .FAILED ∧
    (runFailing st data optsA 0 now (optsAttemptsOr5 optsA)).dlq = st.dlq ++
      [{ jobId := st.nextDlqId,
         entry := { originalJob := data,
                    error := "Routing service temporarily unavailable",
                    failedAt := now, attempts := optsAttemptsOr5 optsA },
         state := .waiting }] ∧
    (∀ j, j < optsAttemptsOr5 optsA →
      statusOf (runFailing st data optsA 0 now j).ledger data.eventId ≠
        some .FAILED ∧
      (runFailing st data optsA 0 now j).dlq = st.dlq) := by
  have hpos := optsAttemptsOr5_pos optsA
  by_cases hone : optsAttemptsOr5 optsA = 1
  · have hge : optsAttemptsOr5 optsA ≤ 0 + 1 := by omega
    have hterm := @runAttempt_fresh_fail_terminal st
      { data := data, attemptsMade := 0, optsAttempts := optsA } now hfresh hge
    have hfin : runFailing st data optsA 0 now (optsAttemptsOr5 optsA) =
        (runAttempt st { data := data, attemptsMade := 0, optsAttempts := optsA }
          false now).1 := by
      rw [hone]
      rfl
    have hfr : findRow (st.ledger ++
        [setFailed "Routing service temporarily unavailable" now
          (incAttempts now (freshRow data now))]) data.eventId =
        some (setFailed "Routing service temporarily unavailable" now
          (incAttempts now (freshRow data now))) := by
      rw [findRow_append]
      simp [hfresh, setFailed, incAttempts, freshRow]
    refine ⟨?_, ?_, ?_⟩
    · rw [hfin, hterm]
      have hgoal : statusOf (st.ledger ++
          [setFailed "Routing service temporarily unavailable" now
            (incAttempts now (freshRow data now))]) data.eventId =
          some .FAILED := by
        simp only [statusOf]
        rw [hfr]
        rfl
      exact hgoal
    · rw [hfin, hterm]
      simp [addToDLQ, hone]
    · intro j hj
      have hj0 : j = 0 := by omega
      subst hj0
      exact ⟨by simp [runFailing, statusOf, hfresh], rfl⟩
  · obtain ⟨mm, hmm⟩ : ∃ mm, optsAttemptsOr5 optsA = mm + 1 :=
      ⟨optsAttemptsOr5 optsA - 1, by omega⟩
    have hlt : 0 + 1 < optsAttemptsOr5 optsA := by omega
    have hstep := @runAttempt_fresh_fail_nonterminal st
      { data := data, attemptsMade := 0, optsAttempts := optsA } now hfresh hlt
    have hfr1 : findRow (st.ledger ++ [incAttempts now (freshRow data now)])
        data.eventId = some (incAttempts now (freshRow data now)) := by
      rw [findRow_append]
      simp [hfresh, incAttempts, freshRow]
    obtain ⟨ha, hb, hc⟩ := runFailing_pending_spec data optsA now mm
      { st with ledger := st.ledger ++ [incAttempts now (freshRow data now)],
                routingCalls := st.routingCalls + 1 }
      1 (incAttempts now (freshRow data now)) hfr1 rfl (by omega) (by omega)
    have hunfold : ∀ j : Nat, runFailing st data optsA 0 now (j + 1) =
        runFailing
          ((runAttempt st { data := data, attemptsMade := 0, optsAttempts := optsA }
            false now).1) data optsA 1 now j := fun j => rfl
    refine ⟨?_, ?_, ?_⟩
    · rw [hmm, hunfold mm, hstep]
      exact ha
    · rw [hmm, hunfold mm, hstep, ← hmm]
      exact hb
    · intro j hj
      cases j with
      | zero => exact ⟨by simp [runFailing, statusOf, hfresh], rfl⟩
      | succ j2 =>
          have hj2 : j2 < mm := by omega
          obtain ⟨hx, hy⟩ := hc j2 hj2
          refine ⟨?_, ?_⟩
          · rw [hunfold j2, hstep, hx]
            intro hcon
            cases hcon
          · rw [hunfold j2, hstep]
            exact hy

theorem c4_exhaustion_dlq_witness :
    statusOf (runFailing (sampleState []) sampleData (some 2) 0 1 2).ledger "e1" =
      some .FAILED ∧
    (runFailing (sampleState []) sampleData (some 2) 0 1 2).dlq =
      [{ jobId := 0,
         entry := { originalJob := sampleData,
                    error := "Routing service temporarily unavailable",
                    failedAt := 1, attempts := 2 },
         state := .waiting }] :=
  ⟨(c4_exhaustion_dlq (sampleState []) sampleData (some 2) 1 (by decide)).1,
   (c4_exhaustion_dlq (sampleState []) sampleData (some 2) 1 (by decide)).2.1⟩

theorem hexVal_hexDigit (d : Nat) (h : d < 16) : hexVal? (hexDigit d) = some d := by
  interval_cases d <;> decide

theorem hexDecode_hexEncode (bs : List Nat) (h : ∀ b ∈ bs, b < 256) :
    hexDecode (hexEncodeChars bs) = bs := by
  induction bs with
  | nil => rfl
  | cons b bs ih =>
      have hb : b < 256 := h b (by simp)
      have h1 : b / 16 < 16 := by omega
      have h2 : b % 16 < 16 := by omega
      have hrt : 16 * (b / 16) + b % 16 = b := by omega
      have ih2 := ih (fun x hx => h x (List.mem_cons_of_mem b hx))
      simp [hexEncodeChars, hexDecode, hexVal_hexDigit _ h1, hexVal_hexDigit _ h2,
        hrt, ih2]

/-- C10: for any HMAC primitive whose digest is nonempty and made of bytes,
`validateHMAC payload (generateHMAC payload secret) secret` returns true for
every payload and nonempty secret; and `validateHMAC` returns false (rather
than throwing) whenever the signature or the secret argument is empty. -/
theorem c10_hmac_roundtrip (hmac : String → String → List Nat) (p sig s2 : String)
    (hs : s2 ≠ "") (hne : hmac s2 p ≠ []) (hlt : ∀ b ∈ hmac s2 p, b < 256) :
    validateHMAC hmac p (generateHMAC hmac p s2) s2 = true ∧
    validateHMAC hmac p sig "" = false ∧
    validateHMAC hmac p "" s2 = false := by
  refine ⟨?_, by simp [validateHMAC], by simp [validateHMAC]⟩
  have hsig : hexEncode (hmac s2 p) ≠ "" := by
    cases hd : hmac s2 p with
    | nil => exact absurd hd hne
    | cons b bs =>
        intro hc
        have : hexEncodeChars (b :: bs) = [] := congrArg String.data hc
        simp [hexEncodeChars] at this
  have hdec : hexDecode (hexEncode (hmac s2 p)).data = hmac s2 p :=
    hexDecode_hexEncode (hmac s2 p) hlt
  simp [validateHMAC, generateHMAC, hsig, hs, hdec]

theorem c10_hmac_roundtrip_witness :
    validateHMAC (fun k m => [0, 255]) "p"
      (generateHMAC (fun k m => [0, 255]) "p" "s") "s" = true ∧
    validateHMAC (fun k m => [0, 255]) "p" "ab" "" = false ∧
    validateHMAC (fun k m => [0, 255]) "p" "" "s" = false :=
  c10_hmac_roundtrip (fun k m => [0, 255]) "p" "ab" "s"
    (by decide) (by decide) (by decide)

end Gateway
